import Mathlib

/-!
Verification of the TinyURL frontend API client (`frontend/ui/src/lib/api.ts`)
and the UI action handlers (`frontend/ui/src/App.svelte`).

The TypeScript code is shallowly embedded: response/payload record types become
Lean structures together with an explicit JSON-object serialization (a list of
key/value pairs in property order, with `undefined` fields dropped, mirroring
`JSON.stringify`); each `fetch` call site becomes a function that builds an
`HttpRequest` value; the post-`fetch` control flow (`if (!res.ok) throw ...;
return res.json()`) becomes a function from an abstract `ApiResponse` to
`Except String JsonVal`.
-/

namespace TinyUrl

/-- A JSON value, the runtime shape of bodies exchanged with the backend. -/
inductive JsonVal where
  | str  : String → JsonVal
  | num  : Int → JsonVal
  | bool : Bool → JsonVal
  | null : JsonVal
  | obj  : List (String × JsonVal) → JsonVal

/-- A JSON object body: key/value pairs in `JSON.stringify` property order. -/
abbrev JsonObj := List (String × JsonVal)

/-- The keys of a JSON object body, in serialization order. -/
def jsonKeys (o : JsonObj) : List String := o.map Prod.fst

/-- The `redirect_code` union type `301 | 302 | 307 | 308` from
`CreateLinkPayload` in `api.ts`. -/
inductive RedirectCode where
  | c301 | c302 | c307 | c308
  deriving DecidableEq, Repr

/-- The numeric value of a `RedirectCode`. -/
def RedirectCode.toNat : RedirectCode → Nat
  | .c301 => 301
  | .c302 => 302
  | .c307 => 307
  | .c308 => 308

/-- `CreateLinkPayload` from `api.ts`: `target_url` required, `link_id` and
`redirect_code` optional (`none` models the TS `undefined`). -/
structure CreateLinkPayload where
  target_url : String
  link_id : Option String
  redirect_code : Option RedirectCode
  deriving DecidableEq, Repr

/-- The JSON body `JSON.stringify` produces for a `CreateLinkPayload`:
properties in declaration order, `undefined` fields omitted. -/
def CreateLinkPayload.toJson (p : CreateLinkPayload) : JsonObj :=
  [("target_url", JsonVal.str p.target_url)]
    ++ (p.link_id.map fun s => ("link_id", JsonVal.str s)).toList
    ++ (p.redirect_code.map fun c => ("redirect_code", JsonVal.num c.toNat)).toList

/-- `CreateLinkResponse` from `api.ts`. -/
structure CreateLinkResponse where
  link_id : String
  short_url : String
  edit_token : String
  redirect_code : Nat
  created_at : String
  deriving DecidableEq, Repr

/-- The canonical JSON object representation of a `CreateLinkResponse`:
exactly its declared fields, in declaration order. -/
def CreateLinkResponse.toJson (r : CreateLinkResponse) : JsonObj :=
  [("link_id", JsonVal.str r.link_id),
   ("short_url", JsonVal.str r.short_url),
   ("edit_token", JsonVal.str r.edit_token),
   ("redirect_code", JsonVal.num r.redirect_code),
   ("created_at", JsonVal.str r.created_at)]

/-- `LinkOut` from `api.ts`: the external representation of a Link returned by
read and update operations. -/
structure LinkOut where
  link_id : String
  target_url : String
  redirect_code : Nat
  created_at : String
  updated_at : String
  active : Bool
  expires_at : Option String
  deriving DecidableEq, Repr

/-- The canonical JSON object representation of a `LinkOut`: exactly its
declared fields, in declaration order (`expires_at` may be JSON `null`). -/
def LinkOut.toJson (l : LinkOut) : JsonObj :=
  [("link_id", JsonVal.str l.link_id),
   ("target_url", JsonVal.str l.target_url),
   ("redirect_code", JsonVal.num l.redirect_code),
   ("created_at", JsonVal.str l.created_at),
   ("updated_at", JsonVal.str l.updated_at),
   ("active", JsonVal.bool l.active),
   ("expires_at", match l.expires_at with
                  | some s => JsonVal.str s
                  | none => JsonVal.null)]

/-- The `deleteLink` return type from `api.ts`: an object with `status` and
`link_id`. -/
structure DeleteLinkResponse where
  status : String
  link_id : String
  deriving DecidableEq, Repr

/-- The canonical JSON object representation of a `DeleteLinkResponse`. -/
def DeleteLinkResponse.toJson (d : DeleteLinkResponse) : JsonObj :=
  [("status", JsonVal.str d.status),
   ("link_id", JsonVal.str d.link_id)]

/-- `true` when the string contains `"token"` as a contiguous substring
(so it names or embeds a token field). -/
def mentionsToken (s : String) : Bool :=
  decide (List.IsInfix "token".toList s.toList)

/-! ## `encodeURIComponent`

The ECMAScript `encodeURIComponent` function: characters in the unreserved
set `A-Z a-z 0-9 - _ . ! ~ * ' ( )` pass through; every other character is
replaced by the percent-encoding of its UTF-8 bytes, with uppercase
hexadecimal digits. -/

/-- Characters `encodeURIComponent` leaves unescaped. -/
def uriUnreserved (c : Char) : Bool :=
  (65 ≤ c.toNat && c.toNat ≤ 90)        -- A-Z
  || (97 ≤ c.toNat && c.toNat ≤ 122)    -- a-z
  || (48 ≤ c.toNat && c.toNat ≤ 57)     -- 0-9
  || c = '-' || c = '_' || c = '.' || c = '!' || c = '~' || c = '*'
  || c = Char.ofNat 39                  -- apostrophe
  || c = '(' || c = ')'

/-- The UTF-8 bytes of a Unicode scalar value. -/
def utf8Bytes (n : Nat) : List Nat :=
  if n < 128 then [n]
  else if n < 2048 then [192 + n / 64, 128 + n % 64]
  else if n < 65536 then [224 + n / 4096, 128 + (n / 64) % 64, 128 + n % 64]
  else [240 + n / 262144, 128 + (n / 4096) % 64, 128 + (n / 64) % 64, 128 + n % 64]

/-- The sixteen uppercase hexadecimal digit characters. -/
def hexDigitChars : List Char := "0123456789ABCDEF".toList

/-- Uppercase hexadecimal digit for `n % 16`. -/
def hexChar (n : Nat) : Char := hexDigitChars.getD (n % 16) '0'

/-- Percent-encoding of one byte: `%` followed by two hex digits. -/
def percentEncodeByte (b : Nat) : List Char :=
  ['%', hexChar (b / 16), hexChar (b % 16)]

/-- One character's contribution to the `encodeURIComponent` output. -/
def encodeURIComponentChar (c : Char) : List Char :=
  if uriUnreserved c then [c]
  else (utf8Bytes c.toNat).flatMap percentEncodeByte

/-- The ECMAScript `encodeURIComponent` function. -/
def encodeURIComponent (s : String) : String :=
  String.mk (s.toList.flatMap encodeURIComponentChar)

/-! ## The `fetch` call sites of `api.ts` and `App.svelte` -/

/-- An outgoing `fetch` request as the client code constructs it: the URL, the
method, the headers, the JSON object body when one is sent, and the `redirect`
mode (the `fetch` default is `follow`). -/
structure HttpRequest where
  url : String
  method : String
  headers : List (String × String)
  body : Option JsonObj
  redirectMode : String

/-- Default API base URL from `api.ts` (`VITE_API_BASE` fallback). -/
def defaultApiBase : String := "http://localhost:8000"

/-- The request `createLink(payload)` issues:
`POST {apiBase}/api/links` with a JSON content-type header and the
stringified payload as body. -/
def createLinkRequest (apiBase : String) (payload : CreateLinkPayload) : HttpRequest :=
  { url := apiBase ++ "/api/links"
    method := "POST"
    headers := [("Content-Type", "application/json")]
    body := some payload.toJson
    redirectMode := "follow" }

/-- The update payload type of `api.ts`:
`Partial<Omit<CreateLinkPayload, link_id>> & (new_link_id?)` — the three
optional fields `target_url`, `redirect_code`, `new_link_id`. -/
structure UpdateLinkData where
  target_url : Option String
  redirect_code : Option RedirectCode
  new_link_id : Option String
  deriving DecidableEq, Repr

/-- The JSON body `JSON.stringify` produces for an `UpdateLinkData`:
`undefined` fields are omitted. -/
def UpdateLinkData.toJson (d : UpdateLinkData) : JsonObj :=
  (d.target_url.map fun s => ("target_url", JsonVal.str s)).toList
    ++ (d.redirect_code.map fun c => ("redirect_code", JsonVal.num c.toNat)).toList
    ++ (d.new_link_id.map fun s => ("new_link_id", JsonVal.str s)).toList

/-- The request `updateLink(linkId, token, data)` issues:
`PATCH {apiBase}/api/links/{encodeURIComponent linkId}` with the
`X-Edit-Token` header carrying the plaintext token and the stringified data
as body. -/
def updateLinkRequest (apiBase linkId token : String) (data : UpdateLinkData) :
    HttpRequest :=
  { url := apiBase ++ "/api/links/" ++ encodeURIComponent linkId
    method := "PATCH"
    headers := [("Content-Type", "application/json"), ("X-Edit-Token", token)]
    body := some data.toJson
    redirectMode := "follow" }

/-- The request `deleteLink(linkId, token)` issues:
`DELETE {apiBase}/api/links/{encodeURIComponent linkId}` with the
`X-Edit-Token` header and no body. -/
def deleteLinkRequest (apiBase linkId token : String) : HttpRequest :=
  { url := apiBase ++ "/api/links/" ++ encodeURIComponent linkId
    method := "DELETE"
    headers := [("X-Edit-Token", token)]
    body := none
    redirectMode := "follow" }

/-- The request `testRedirect` in `App.svelte` issues:
`GET {apiBase}/{encodeURIComponent linkId}` with `redirect` set to `manual`
and no body or extra headers. -/
def testRedirectRequest (apiBase linkId : String) : HttpRequest :=
  { url := apiBase ++ "/" ++ encodeURIComponent linkId
    method := "GET"
    headers := []
    body := none
    redirectMode := "manual" }

/-! ## Response handling in `api.ts` -/

/-- A `fetch` response as the client code observes it: the wire status code,
the response headers, the body as text (`res.text()`), and the body parsed as
JSON (`res.json()`). -/
structure ApiResponse where
  status : Nat
  headers : List (String × String)
  bodyText : String
  json : JsonVal

/-- The `Response.ok` getter of the Fetch standard: status in the range
200 to 299. -/
def respOkStatus (status : Nat) : Bool := 200 ≤ status && status ≤ 299

/-- `res.ok` for an `ApiResponse`. -/
def ApiResponse.ok (r : ApiResponse) : Bool := respOkStatus r.status

/-- ASCII lowercasing of one character, as header-name comparison uses. -/
def charLower (c : Char) : Char :=
  if 65 ≤ c.toNat ∧ c.toNat ≤ 90 then Char.ofNat (c.toNat + 32) else c

/-- ASCII lowercasing of a string. -/
def strLower (s : String) : String := String.mk (s.toList.map charLower)

/-- `Headers.get` of the Fetch standard: case-insensitive name lookup,
`none` when the header is absent. -/
def headersGet (headers : List (String × String)) (name : String) : Option String :=
  (headers.find? fun p => strLower p.fst == strLower name).map Prod.snd

/-- Post-`fetch` control flow of `createLink`:
`if (!res.ok) throw new Error(await res.text()); return res.json();`. -/
def createLinkHandle (r : ApiResponse) : Except String JsonVal :=
  if !r.ok then Except.error r.bodyText else Except.ok r.json

/-- Post-`fetch` control flow of `updateLink`, identical in shape. -/
def updateLinkHandle (r : ApiResponse) : Except String JsonVal :=
  if !r.ok then Except.error r.bodyText else Except.ok r.json

/-- Post-`fetch` control flow of `deleteLink`, identical in shape. -/
def deleteLinkHandle (r : ApiResponse) : Except String JsonVal :=
  if !r.ok then Except.error r.bodyText else Except.ok r.json

/-! ## `App.svelte` form state and action handlers -/

/-- The create form state: `createForm` in `App.svelte`, where `link_id` is a
plain (possibly empty) string bound to the alias input and `redirect_code` is
bound to a select whose options are the four codes. -/
structure CreateFormState where
  target_url : String
  link_id : String
  redirect_code : RedirectCode
  deriving DecidableEq, Repr

/-- The initial create form state:
`{ target_url: (empty), link_id: (empty), redirect_code: 301 }`. -/
def initialCreateForm : CreateFormState :=
  { target_url := "", link_id := "", redirect_code := RedirectCode.c301 }

/-- The options of the create form's redirect-code select, in markup order. -/
def createCodeOptions : List RedirectCode :=
  [RedirectCode.c301, RedirectCode.c302, RedirectCode.c307, RedirectCode.c308]

/-- The payload `onCreate` builds from the form:
`link_id: createForm.link_id || undefined` coerces the empty string to
`undefined`; `redirect_code` is always taken from the select. -/
def onCreatePayload (f : CreateFormState) : CreateLinkPayload :=
  { target_url := f.target_url
    link_id := if f.link_id = "" then none else some f.link_id
    redirect_code := some f.redirect_code }

/-- The update form state: `updTarget`, `updCode`, `updNewAlias` in
`App.svelte`; `updCode` is `none` when the select shows the empty
"(no change)" option. -/
structure UpdateFormState where
  updLinkId : String
  updToken : String
  updTarget : String
  updCode : Option RedirectCode
  updNewAlias : String
  deriving DecidableEq, Repr

/-- The data object `onUpdate` builds: each field is added only when the
bound form value is truthy (non-empty string, or a selected code). -/
def onUpdateData (f : UpdateFormState) : UpdateLinkData :=
  { target_url := if f.updTarget = "" then none else some f.updTarget
    redirect_code := f.updCode
    new_link_id := if f.updNewAlias = "" then none else some f.updNewAlias }

/-- The message a handler displays for a caught error `e`:
`e?.message || String(e)`. For an `Error` with message `msg` this is `msg`
when non-empty and the `String(e)` fallback (which prints as `Error`) when
the message is the empty string. -/
def errMsgDisplay (msg : String) : String :=
  if msg = "" then "Error" else msg

/-- A result/error display pair in `App.svelte`
(`createResult`/`createError`, `updResult`/`updError`,
`delResult`/`delError`). -/
structure DisplayState (α : Type) where
  result : Option α
  error : Option String

/-- One run of `onCreate` over the display state: reset both fields to null,
then either store the response or store the caught error message. -/
def onCreateRun (prev : DisplayState CreateLinkResponse)
    (outcome : Except String CreateLinkResponse) :
    DisplayState CreateLinkResponse :=
  let reset : DisplayState CreateLinkResponse :=
    { prev with error := none, result := none }
  match outcome with
  | Except.ok v => { reset with result := some v }
  | Except.error m => { reset with error := some (errMsgDisplay m) }

/-- One run of `onUpdate` over the display state, same shape as `onCreate`. -/
def onUpdateRun (prev : DisplayState JsonVal)
    (outcome : Except String JsonVal) : DisplayState JsonVal :=
  let reset : DisplayState JsonVal := { prev with error := none, result := none }
  match outcome with
  | Except.ok v => { reset with result := some v }
  | Except.error m => { reset with error := some (errMsgDisplay m) }

/-- One run of `onDelete` over the display state, same shape as `onCreate`. -/
def onDeleteRun (prev : DisplayState JsonVal)
    (outcome : Except String JsonVal) : DisplayState JsonVal :=
  let reset : DisplayState JsonVal := { prev with error := none, result := none }
  match outcome with
  | Except.ok v => { reset with result := some v }
  | Except.error m => { reset with error := some (errMsgDisplay m) }

/-- The redirect tester display state (`redirectTester` in `App.svelte`). -/
structure RedirectTesterState where
  status : String
  location : String
  deriving DecidableEq, Repr

/-- What `testRedirect` reports for a received response:
`status` is `String(res.status)` and `location` is
`res.headers.get(Location) || (empty)`. -/
def testRedirectReport (res : ApiResponse) : RedirectTesterState :=
  { status := toString res.status
    location := match headersGet res.headers "Location" with
                | some v => if v = "" then "" else v
                | none => "" }

/-- Whether an `Except` result is a success, i.e. the modelled async function
resolved rather than threw. -/
def exceptIsOk {ε α : Type} : Except ε α → Bool
  | Except.ok _ => true
  | Except.error _ => false

/-! ## Theorems -/

/-- C1: the canonical external representation of a Link returned by read and
update operations (`LinkOut`) contains exactly the fields `link_id`,
`target_url`, `redirect_code`, `created_at`, `updated_at`, `active`,
`expires_at`, and contains no `edit_token_hash` field, for every value. -/
theorem linkOut_fields_exact_no_token_hash (l : LinkOut) :
    jsonKeys (LinkOut.toJson l) =
      ["link_id", "target_url", "redirect_code", "created_at", "updated_at",
       "active", "expires_at"] ∧
    "edit_token_hash" ∉ jsonKeys (LinkOut.toJson l) := by
  have hk : jsonKeys (LinkOut.toJson l) =
      ["link_id", "target_url", "redirect_code", "created_at", "updated_at",
       "active", "expires_at"] := rfl
  refine ⟨hk, ?_⟩
  rw [hk]
  decide

/-- C2: the create response (`CreateLinkResponse`) carries an `edit_token`
field alongside the link data, while the response types of update (`LinkOut`)
and delete (`DeleteLinkResponse`) contain no token field at all. -/
theorem create_response_only_carries_token
    (r : CreateLinkResponse) (l : LinkOut) (d : DeleteLinkResponse) :
    jsonKeys (CreateLinkResponse.toJson r) =
      ["link_id", "short_url", "edit_token", "redirect_code", "created_at"] ∧
    "edit_token" ∈ jsonKeys (CreateLinkResponse.toJson r) ∧
    jsonKeys (DeleteLinkResponse.toJson d) = ["status", "link_id"] ∧
    (jsonKeys (LinkOut.toJson l)).all (fun k => !mentionsToken k) = true ∧
    (jsonKeys (DeleteLinkResponse.toJson d)).all (fun k => !mentionsToken k) = true := by
  have hr : jsonKeys (CreateLinkResponse.toJson r) =
      ["link_id", "short_url", "edit_token", "redirect_code", "created_at"] := rfl
  have hd : jsonKeys (DeleteLinkResponse.toJson d) = ["status", "link_id"] := rfl
  have hl : jsonKeys (LinkOut.toJson l) =
      ["link_id", "target_url", "redirect_code", "created_at", "updated_at",
       "active", "expires_at"] := rfl
  refine ⟨hr, ?_, hd, ?_, ?_⟩
  · rw [hr]; decide
  · rw [hl]; decide
  · rw [hd]; decide

/-- C6: the create payload's `redirect_code` ranges over exactly
{301, 302, 307, 308}; the form select offers exactly these four options; the
form's initial `redirect_code` is 301; and `onCreate` always sends the
selected code. -/
theorem create_redirect_code_domain_and_default :
    (∀ c : RedirectCode,
      c.toNat = 301 ∨ c.toNat = 302 ∨ c.toNat = 307 ∨ c.toNat = 308) ∧
    createCodeOptions.map RedirectCode.toNat = [301, 302, 307, 308] ∧
    (∀ c : RedirectCode, c ∈ createCodeOptions) ∧
    RedirectCode.toNat initialCreateForm.redirect_code = 301 ∧
    (∀ f : CreateFormState,
      (onCreatePayload f).redirect_code = some f.redirect_code) := by
  refine ⟨?_, rfl, ?_, rfl, ?_⟩
  · intro c; cases c <;> simp [RedirectCode.toNat]
  · intro c; cases c <;> decide
  · intro f; rfl

/-- `Headers.get` finds `X-Edit-Token` in the `updateLink` header list. -/
theorem headersGet_update_token (t : String) :
    headersGet [("Content-Type", "application/json"), ("X-Edit-Token", t)]
      "X-Edit-Token" = some t := by
  rfl

/-- `Headers.get` finds `X-Edit-Token` in the `deleteLink` header list. -/
theorem headersGet_delete_token (t : String) :
    headersGet [("X-Edit-Token", t)] "X-Edit-Token" = some t := by
  rfl

/-- C3: every mutating request carries the plaintext edit token exactly in the
`X-Edit-Token` header: the headers of `updateLink` and `deleteLink` requests
are exactly as listed with `X-Edit-Token` set to the given token, and the URL
and body of each request are independent of the token (two requests differing
only in the token have identical URL and body). -/
theorem mutating_requests_token_in_header_only
    (apiBase linkId t u : String) (data : UpdateLinkData) :
    (updateLinkRequest apiBase linkId t data).headers =
      [("Content-Type", "application/json"), ("X-Edit-Token", t)] ∧
    headersGet (updateLinkRequest apiBase linkId t data).headers "X-Edit-Token" =
      some t ∧
    (updateLinkRequest apiBase linkId t data).url =
      (updateLinkRequest apiBase linkId u data).url ∧
    (updateLinkRequest apiBase linkId t data).body =
      (updateLinkRequest apiBase linkId u data).body ∧
    (deleteLinkRequest apiBase linkId t).headers = [("X-Edit-Token", t)] ∧
    headersGet (deleteLinkRequest apiBase linkId t).headers "X-Edit-Token" =
      some t ∧
    (deleteLinkRequest apiBase linkId t).url =
      (deleteLinkRequest apiBase linkId u).url ∧
    (deleteLinkRequest apiBase linkId t).body =
      (deleteLinkRequest apiBase linkId u).body :=
  ⟨rfl, headersGet_update_token t, rfl, rfl, rfl, headersGet_delete_token t,
   rfl, rfl⟩

/-- C4: the redirect tester issues a `GET` request to `/:link_id` with
`redirect` set to `manual` and no body, and reports exactly the wire status
code and the `Location` header value, reporting the empty string when
`Location` is absent. -/
theorem testRedirect_get_manual_reports_status_location
    (apiBase linkId : String) (res : ApiResponse) :
    (testRedirectRequest apiBase linkId).method = "GET" ∧
    (testRedirectRequest apiBase linkId).redirectMode = "manual" ∧
    (testRedirectRequest apiBase linkId).body = none ∧
    (testRedirectRequest apiBase linkId).url =
      apiBase ++ "/" ++ encodeURIComponent linkId ∧
    (testRedirectReport res).status = toString res.status ∧
    (headersGet res.headers "Location" = none →
      (testRedirectReport res).location = "") ∧
    (∀ v, headersGet res.headers "Location" = some v → v ≠ "" →
      (testRedirectReport res).location = v) := by
  refine ⟨rfl, rfl, rfl, rfl, rfl, ?_, ?_⟩
  · intro h
    simp [testRedirectReport, h]
  · intro v h hv
    simp [testRedirectReport, h, hv]

/-- C4 witness: a 410-style response with no `Location` header reports the
empty string, and a 301-style response reports its `Location` value. -/
theorem testRedirect_report_witness :
    (testRedirectReport ⟨410, [], "", JsonVal.null⟩).location = "" ∧
    (testRedirectReport
      ⟨301, [("Location", "https://example.com")], "", JsonVal.null⟩).location =
      "https://example.com" := by
  constructor
  · exact (testRedirect_get_manual_reports_status_location defaultApiBase "x"
      ⟨410, [], "", JsonVal.null⟩).2.2.2.2.2.1 rfl
  · exact (testRedirect_get_manual_reports_status_location defaultApiBase "x"
      ⟨301, [("Location", "https://example.com")], "", JsonVal.null⟩).2.2.2.2.2.2
      "https://example.com" (by decide) (by decide)

/-- C5: for each of `createLink`, `updateLink`, `deleteLink`, the function
throws exactly when the response status is not ok (outside 200..299); the
thrown message is the response body text; on an ok response it returns the
parsed JSON body; and every error status the spec maps (400, 401, 403, 404,
409, 410, 429, 500, 503) is not ok. -/
theorem api_functions_throw_iff_not_ok (r : ApiResponse) :
    exceptIsOk (createLinkHandle r) = r.ok ∧
    exceptIsOk (updateLinkHandle r) = r.ok ∧
    exceptIsOk (deleteLinkHandle r) = r.ok ∧
    (r.ok = false →
      createLinkHandle r = Except.error r.bodyText ∧
      updateLinkHandle r = Except.error r.bodyText ∧
      deleteLinkHandle r = Except.error r.bodyText) ∧
    (r.ok = true →
      createLinkHandle r = Except.ok r.json ∧
      updateLinkHandle r = Except.ok r.json ∧
      deleteLinkHandle r = Except.ok r.json) ∧
    ([400, 401, 403, 404, 409, 410, 429, 500, 503].all
      fun s => !respOkStatus s) = true := by
  cases h : r.ok with
  | false =>
      refine ⟨?_, ?_, ?_, ?_, ?_, by decide⟩ <;>
        simp [createLinkHandle, updateLinkHandle, deleteLinkHandle, h,
          exceptIsOk]
  | true =>
      refine ⟨?_, ?_, ?_, ?_, ?_, by decide⟩ <;>
        simp [createLinkHandle, updateLinkHandle, deleteLinkHandle, h,
          exceptIsOk]

/-- C5 witness: a 404 response makes `createLink` throw with the body text as
message, and a 200 response makes `updateLink` return the parsed body. -/
theorem api_functions_throw_witness :
    createLinkHandle ⟨404, [], "not found", JsonVal.null⟩ =
      Except.error "not found" ∧
    updateLinkHandle ⟨200, [], "", JsonVal.null⟩ = Except.ok JsonVal.null := by
  constructor
  · exact ((api_functions_throw_iff_not_ok
      ⟨404, [], "not found", JsonVal.null⟩).2.2.2.1 (by decide)).1
  · exact ((api_functions_throw_iff_not_ok
      ⟨200, [], "", JsonVal.null⟩).2.2.2.2.1 (by decide)).2.1

/-- C7: an update request's body contains at most the three optional fields
`target_url`, `redirect_code`, `new_link_id`, and each is present in the PATCH
payload exactly when the corresponding form field is non-empty (the empty
"(no change)" select option omits `redirect_code` entirely). -/
theorem update_body_fields_iff_form_filled
    (apiBase : String) (f : UpdateFormState) :
    (updateLinkRequest apiBase f.updLinkId f.updToken (onUpdateData f)).body =
      some (onUpdateData f).toJson ∧
    (∀ k, k ∈ jsonKeys (onUpdateData f).toJson →
      k = "target_url" ∨ k = "redirect_code" ∨ k = "new_link_id") ∧
    ("target_url" ∈ jsonKeys (onUpdateData f).toJson ↔ f.updTarget ≠ "") ∧
    ("redirect_code" ∈ jsonKeys (onUpdateData f).toJson ↔
      f.updCode.isSome = true) ∧
    ("new_link_id" ∈ jsonKeys (onUpdateData f).toJson ↔ f.updNewAlias ≠ "") := by
  obtain ⟨li, tok, tgt, code, als⟩ := f
  refine ⟨rfl, ?_, ?_, ?_, ?_⟩ <;>
    by_cases ht : tgt = "" <;> by_cases ha : als = "" <;> cases code <;>
      simp [onUpdateData, UpdateLinkData.toJson, jsonKeys, ht, ha]

/-- C7 witness: with only the target field filled, the PATCH body has exactly
the `target_url` key; `redirect_code` and `new_link_id` are omitted. -/
theorem update_body_fields_witness :
    ("target_url" ∈ jsonKeys (onUpdateData
      ⟨"id1", "tok", "https://example.com/new", none, ""⟩).toJson) ∧
    ("redirect_code" ∉ jsonKeys (onUpdateData
      ⟨"id1", "tok", "https://example.com/new", none, ""⟩).toJson) := by
  constructor
  · exact (update_body_fields_iff_form_filled defaultApiBase
      ⟨"id1", "tok", "https://example.com/new", none, ""⟩).2.2.1.mpr (by decide)
  · intro hmem
    have h := (update_body_fields_iff_form_filled defaultApiBase
      ⟨"id1", "tok", "https://example.com/new", none, ""⟩).2.2.2.1.mp hmem
    simp at h

/-- C8: when the custom-alias form field is the empty string, the create
request body contains no `link_id` key at all; `link_id` is present exactly
when the alias is non-empty. -/
theorem create_body_link_id_iff_alias_filled
    (apiBase : String) (f : CreateFormState) :
    (createLinkRequest apiBase (onCreatePayload f)).body =
      some (onCreatePayload f).toJson ∧
    ("link_id" ∈ jsonKeys (onCreatePayload f).toJson ↔ f.link_id ≠ "") ∧
    (f.link_id = "" →
      jsonKeys (onCreatePayload f).toJson = ["target_url", "redirect_code"]) ∧
    (f.link_id ≠ "" →
      jsonKeys (onCreatePayload f).toJson =
        ["target_url", "link_id", "redirect_code"]) := by
  obtain ⟨turl, als, code⟩ := f
  refine ⟨rfl, ?_, ?_, ?_⟩ <;>
    by_cases ha : als = "" <;>
      simp [onCreatePayload, CreateLinkPayload.toJson, jsonKeys, ha]

/-- C8 witness: the initial form (empty alias) produces a body whose keys are
exactly `target_url` and `redirect_code`, with no `link_id`. -/
theorem create_body_link_id_witness :
    jsonKeys (onCreatePayload initialCreateForm).toJson =
      ["target_url", "redirect_code"] :=
  (create_body_link_id_iff_alias_filled defaultApiBase
    initialCreateForm).2.2.1 rfl

/-- C10: each UI action handler resets both its error and result state before
the request and then sets exactly one of them: after a successful outcome the
result holds the response and the error is null; after a failure the result is
null (regardless of any previous result) and the error holds the message; in
every case at most one of the pair is non-null. -/
theorem handlers_set_exactly_one_of_result_error
    (prevC : DisplayState CreateLinkResponse) (prevU prevD : DisplayState JsonVal)
    (v : CreateLinkResponse) (w : JsonVal) (m : String) :
    (onCreateRun prevC (Except.ok v)).result = some v ∧
    (onCreateRun prevC (Except.ok v)).error = none ∧
    (onCreateRun prevC (Except.error m)).result = none ∧
    (onCreateRun prevC (Except.error m)).error = some (errMsgDisplay m) ∧
    (onUpdateRun prevU (Except.ok w)).result = some w ∧
    (onUpdateRun prevU (Except.ok w)).error = none ∧
    (onUpdateRun prevU (Except.error m)).result = none ∧
    (onUpdateRun prevU (Except.error m)).error = some (errMsgDisplay m) ∧
    (onDeleteRun prevD (Except.ok w)).result = some w ∧
    (onDeleteRun prevD (Except.ok w)).error = none ∧
    (onDeleteRun prevD (Except.error m)).result = none ∧
    (onDeleteRun prevD (Except.error m)).error = some (errMsgDisplay m) ∧
    (∀ o : Except String CreateLinkResponse,
      ((onCreateRun prevC o).result.isSome &&
        (onCreateRun prevC o).error.isSome) = false) ∧
    (∀ o : Except String JsonVal,
      ((onUpdateRun prevU o).result.isSome &&
        (onUpdateRun prevU o).error.isSome) = false) ∧
    (∀ o : Except String JsonVal,
      ((onDeleteRun prevD o).result.isSome &&
        (onDeleteRun prevD o).error.isSome) = false) := by
  refine ⟨rfl, rfl, rfl, rfl, rfl, rfl, rfl, rfl, rfl, rfl, rfl, rfl, ?_, ?_, ?_⟩ <;>
    rintro (e | x) <;> simp [onCreateRun, onUpdateRun, onDeleteRun]

/-- `hexChar` always yields one of the sixteen hex digit characters. -/
theorem hexChar_mem_hexDigitChars (n : Nat) : hexChar n ∈ hexDigitChars := by
  have hlen : hexDigitChars.length = 16 := rfl
  have h : n % 16 < hexDigitChars.length := by
    rw [hlen]; exact Nat.mod_lt n (by decide)
  unfold hexChar
  rw [List.getD_eq_getElem?_getD, List.getElem?_eq_getElem h]
  exact List.getElem_mem h

/-- Every character emitted by `encodeURIComponentChar` is either an
unreserved character, the percent sign, or a hex digit. -/
theorem encodeURIComponentChar_safe (a c : Char)
    (h : c ∈ encodeURIComponentChar a) :
    uriUnreserved c = true ∨ c = '%' ∨ c ∈ hexDigitChars := by
  unfold encodeURIComponentChar at h
  by_cases hu : uriUnreserved a
  · rw [if_pos hu] at h
    rcases List.mem_singleton.mp h with rfl
    exact Or.inl hu
  · rw [if_neg hu] at h
    rcases List.mem_flatMap.mp h with ⟨b, _, hcb⟩
    unfold percentEncodeByte at hcb
    rcases hcb with _ | ⟨_, hcb⟩
    · exact Or.inr (Or.inl rfl)
    · rcases hcb with _ | ⟨_, hcb⟩
      · exact Or.inr (Or.inr (hexChar_mem_hexDigitChars _))
      · rcases hcb with _ | ⟨_, hcb⟩
        · exact Or.inr (Or.inr (hexChar_mem_hexDigitChars _))
        · cases hcb

/-- No character of an `encodeURIComponent` output is a path or query
delimiter. -/
theorem encodeURIComponent_no_delimiters (s : String) :
    ∀ c ∈ (encodeURIComponent s).toList, c ≠ '/' ∧ c ≠ '?' ∧ c ≠ '#' := by
  intro c hc
  have hm : c ∈ s.toList.flatMap encodeURIComponentChar := hc
  rcases List.mem_flatMap.mp hm with ⟨a, _, hca⟩
  rcases encodeURIComponentChar_safe a c hca with hu | hp | hx
  · refine ⟨?_, ?_, ?_⟩ <;> rintro rfl <;> simp [uriUnreserved] at hu
  · subst hp; exact ⟨by decide, by decide, by decide⟩
  · fin_cases hx <;> exact ⟨by decide, by decide, by decide⟩

/-- `utf8Bytes` never returns the empty list. -/
theorem utf8Bytes_ne_nil (n : Nat) : utf8Bytes n ≠ [] := by
  unfold utf8Bytes
  split
  · simp
  · split
    · simp
    · split <;> simp

/-- `encodeURIComponentChar` never returns the empty list. -/
theorem encodeURIComponentChar_ne_nil (c : Char) :
    encodeURIComponentChar c ≠ [] := by
  unfold encodeURIComponentChar
  split
  · simp
  · rcases hb : utf8Bytes c.toNat with _ | ⟨b, bs⟩
    · exact absurd hb (utf8Bytes_ne_nil _)
    · simp [percentEncodeByte]

/-- A percent-escaped character's encoding starts with the percent sign. -/
theorem encodeURIComponentChar_escaped (c : Char)
    (h : uriUnreserved c = false) :
    ∃ t, encodeURIComponentChar c = '%' :: t := by
  unfold encodeURIComponentChar
  rw [if_neg (by simp [h])]
  rcases hb : utf8Bytes c.toNat with _ | ⟨b, bs⟩
  · exact absurd hb (utf8Bytes_ne_nil _)
  · exact ⟨_, rfl⟩

/-- An unreserved character encodes to itself alone. -/
theorem encodeURIComponentChar_unreserved (c : Char)
    (h : uriUnreserved c = true) : encodeURIComponentChar c = [c] := by
  unfold encodeURIComponentChar
  rw [if_pos (by simp [h])]

/-- Only the dot character list encodes to a single dot, and only the
dot-dot list encodes to two dots. -/
theorem flatMap_encode_dots (l : List Char) :
    (l.flatMap encodeURIComponentChar = ['.'] → l = ['.']) ∧
    (l.flatMap encodeURIComponentChar = ['.', '.'] → l = ['.', '.']) := by
  induction l with
  | nil => simp
  | cons c cs ih =>
    have hcons : (c :: cs).flatMap encodeURIComponentChar =
        encodeURIComponentChar c ++ cs.flatMap encodeURIComponentChar :=
      List.flatMap_cons c cs encodeURIComponentChar
    rcases hu : uriUnreserved c with _ | _
    · obtain ⟨t, ht⟩ := encodeURIComponentChar_escaped c hu
      constructor <;> intro h <;> rw [hcons, ht, List.cons_append] at h <;>
        injection h with h1 _ <;> exact absurd h1 (by decide)
    · have hc := encodeURIComponentChar_unreserved c hu
      constructor <;> intro h <;>
        rw [hcons, hc, List.singleton_append] at h <;>
        injection h with h1 h2 <;> subst h1
      · have hnil : cs = [] := by
          rcases hcs : cs with _ | ⟨d, ds⟩
          · rfl
          · exfalso
            rw [hcs, List.flatMap_cons] at h2
            exact encodeURIComponentChar_ne_nil d
              (List.append_eq_nil.mp h2).1
        rw [hnil]
      · rw [ih.1 h2]

/-- The only id strings whose `encodeURIComponent` image is a dot segment
are the dot segments themselves. -/
theorem encodeURIComponent_dot_only (s : String) :
    (encodeURIComponent s = "." → s = ".") ∧
    (encodeURIComponent s = ".." → s = "..") := by
  obtain ⟨l⟩ := s
  constructor <;> intro h <;>
    have hl := congrArg String.data h
  · have : l.flatMap encodeURIComponentChar = ['.'] := hl
    have h1 := (flatMap_encode_dots l).1 this
    rw [h1]
  · have : l.flatMap encodeURIComponentChar = ['.', '.'] := hl
    have h2 := (flatMap_encode_dots l).2 this
    rw [h2]

/-- Slash-splitting of a path into segments (helper). -/
def splitSegsAux : List Char → List Char → List String
  | [], acc => [String.mk acc.reverse]
  | c :: rest, acc =>
    if c = '/' then String.mk acc.reverse :: splitSegsAux rest []
    else splitSegsAux rest (c :: acc)

/-- The slash-separated segments of a URL path. -/
def pathSegments (p : String) : List String := splitSegsAux p.toList []

/-- Drop the most recent output segment, keeping the leading root marker
(the empty segment before the first slash). -/
def removeLastNonRoot : List String → List String
  | [] => []
  | [r] => [r]
  | _ :: out => out

/-- Modelled from the spec: dot-segment normalization that a URL parser
applies to a request path before the request is sent (RFC 3986
`remove_dot_segments` over slash-separated segments, as the WHATWG URL
parser used by `fetch` performs it): a `.` segment is dropped, a `..`
segment removes the preceding segment, and a trailing dot segment leaves a
trailing empty segment (a trailing slash). This platform behaviour is not
part of the repository code but is what the claim's phrase "alter the
request target" refers to. -/
def removeDotSegmentsAux : List String → List String → List String
  | out, [] => out.reverse
  | out, [s] =>
    if s = "." then ("" :: out).reverse
    else if s = ".." then ("" :: removeLastNonRoot out).reverse
    else (s :: out).reverse
  | out, s :: rest =>
    if s = "." then removeDotSegmentsAux out rest
    else if s = ".." then removeDotSegmentsAux (removeLastNonRoot out) rest
    else removeDotSegmentsAux (s :: out) rest

/-- Dot-segment normalization of a segment list. -/
def removeDotSegments (segs : List String) : List String :=
  removeDotSegmentsAux [] segs

/-- C9 counterexample: at the concrete id `..` the claim fails. The dot is
in `encodeURIComponent`'s unreserved set, so the id `..` passes through
unchanged; the `updateLink`/`deleteLink` request URL then ends in the
double-dot segment `/api/links/..`, which the URL parser's dot-segment
normalization collapses to the path `/api/` before the request is sent —
the id occupies no path segment of the final request target and has
altered it. -/
theorem request_path_id_dotdot_counterexample :
    encodeURIComponent ".." = ".." ∧
    (updateLinkRequest defaultApiBase ".." "tok" ⟨none, none, none⟩).url =
      "http://localhost:8000/api/links/.." ∧
    (deleteLinkRequest defaultApiBase ".." "tok").url =
      "http://localhost:8000/api/links/.." ∧
    pathSegments "/api/links/.." = ["", "api", "links", ".."] ∧
    removeDotSegments (pathSegments "/api/links/..") = ["", "api", ""] ∧
    ".." ∉ removeDotSegments (pathSegments "/api/links/..") := by
  refine ⟨by decide, rfl, rfl, by decide, by decide, by decide⟩

/-- C9 (amended): every link id interpolated into a request path
(`updateLink`, `deleteLink`, and the redirect tester) is percent-encoded
with `encodeURIComponent`, so the encoded id contains no `/`, `?` or `#`
and cannot introduce a segment boundary or query/fragment delimiter; and
for every id other than `.` and `..` the encoded id is not a dot segment,
so it occupies exactly one path segment surviving the URL parser's
dot-segment normalization. The ids `.` and `..` themselves pass through
unchanged and are normalized away, altering the request target. -/
theorem request_path_id_single_segment_amended
    (apiBase linkId token : String) (data : UpdateLinkData) :
    (updateLinkRequest apiBase linkId token data).url =
      apiBase ++ "/api/links/" ++ encodeURIComponent linkId ∧
    (deleteLinkRequest apiBase linkId token).url =
      apiBase ++ "/api/links/" ++ encodeURIComponent linkId ∧
    (testRedirectRequest apiBase linkId).url =
      apiBase ++ "/" ++ encodeURIComponent linkId ∧
    (∀ c ∈ (encodeURIComponent linkId).toList, c ≠ '/' ∧ c ≠ '?' ∧ c ≠ '#') ∧
    (linkId ≠ "." → linkId ≠ ".." →
      encodeURIComponent linkId ≠ "." ∧ encodeURIComponent linkId ≠ "..") := by
  refine ⟨rfl, rfl, rfl, encodeURIComponent_no_delimiters linkId, ?_⟩
  intro h1 h2
  constructor
  · intro he
    exact h1 ((encodeURIComponent_dot_only linkId).1 he)
  · intro he
    exact h2 ((encodeURIComponent_dot_only linkId).2 he)

/-- C9 witness: the id `a/b?c#d` encodes to `a%2Fb%3Fc%23d`; the percent
sign is in the encoded output, the theorem rules out the delimiters for it,
and the encoded id is not a dot segment. -/
theorem request_path_id_amended_witness :
    encodeURIComponent "a/b?c#d" = "a%2Fb%3Fc%23d" ∧
    '%' ∈ (encodeURIComponent "a/b?c#d").toList ∧
    ('%' ≠ '/' ∧ '%' ≠ '?' ∧ '%' ≠ '#') ∧
    (encodeURIComponent "a/b?c#d" ≠ "." ∧ encodeURIComponent "a/b?c#d" ≠ "..") :=
  ⟨by decide, by decide,
   (request_path_id_single_segment_amended defaultApiBase "a/b?c#d" "tok"
     ⟨none, none, none⟩).2.2.2.1 '%' (by decide),
   (request_path_id_single_segment_amended defaultApiBase "a/b?c#d" "tok"
     ⟨none, none, none⟩).2.2.2.2 (by decide) (by decide)⟩

end TinyUrl
